import Mathlib

/-!
Shallow embedding of the Tauri backend shell in `src/src-tauri/src/lib.rs`
(msg-reader).  Paths are modelled as Unix-style strings, the filesystem as a
partial map from path to byte list, and the process-wide `PendingFiles` store
together with the emitted `file-open` events, stderr diagnostics and the
window-focus flag as an explicit `AppState` record threaded through each
operation.
-/

namespace MsgReader

/-- Split a character list at every occurrence of `sep` (the splitter used
for path components and for the extension dot). -/
def splitOnChar (sep : Char) : List Char → List (List Char)
  | [] => [[]]
  | c :: cs =>
    if c = sep then [] :: splitOnChar sep cs
    else
      match splitOnChar sep cs with
      | [] => [[c]]
      | h :: t => (c :: h) :: t

/-- All `sep`-separated pieces of a string, as strings. -/
def splitPieces (sep : Char) (p : String) : List String :=
  (splitOnChar sep p.data).map String.mk

/-- ASCII lowercasing of a string (Rust `str::to_lowercase` restricted to
the ASCII range, which is all an extension comparison against `"msg"` /
`"eml"` can observe). -/
def lowercase (s : String) : String := String.mk (s.data.map Char.toLower)

/-- Mirrors Rust `Path::file_name` for Unix-style string paths: the last
non-empty, non-`.` component, or `none` when the path is empty, is a root,
or ends in a `..` component. -/
def rustFileName (p : String) : Option String :=
  let comps := (splitPieces '/' p).filter (fun c => !(c == "" || c == "."))
  match comps.getLast? with
  | none => none
  | some c => if c == ".." then none else some c

/-- Mirrors Rust `Path::extension`: the portion of the file name after the
last `.`; `none` when there is no `.`, or when the file name begins with `.`
and contains no other `.`. -/
def rustExtension (p : String) : Option String :=
  match rustFileName p with
  | none => none
  | some f =>
    let parts := splitPieces '.' f
    if parts.length ≤ 1 then none
    else if parts.length == 2 && parts.head? == some "" then none
    else parts.getLast?

/-- The extension check shared by every filter site in `lib.rs`:
`path.extension().and_then(|e| e.to_str()).map(|e| e.to_lowercase())`
matched against `Some("msg") | Some("eml")`. -/
def recognizedExt (p : String) : Bool :=
  match (rustExtension p).map lowercase with
  | some e => e == "msg" || e == "eml"
  | none => false

/-- Unix absolute-path test (mirrors `Path::is_absolute` on Unix). -/
def isAbsolutePath (p : String) : Bool :=
  match p.data with
  | c :: _ => c == '/'
  | [] => false

/-- Mirrors Rust `PathBuf::join` for Unix-style paths: an absolute `child`
replaces `base` entirely. -/
def pathJoin (base child : String) : String :=
  if isAbsolutePath child then child
  else if base.data.getLast? == some '/' then base ++ child
  else base ++ "/" ++ child

/-- Interleave `/` between path components. -/
def joinSlash : List String → String
  | [] => ""
  | [c] => c
  | c :: rest => c ++ "/" ++ joinSlash rest

/-- Lexical normalisation of an absolute Unix path: drops empty and `.`
components and resolves each `..` against its parent (the parent of the root
being the root). -/
def normalizePath (p : String) : String :=
  let comps := (splitPieces '/' p).filter (fun c => !(c == "" || c == "."))
  let resolved := comps.foldl
    (fun acc c => if c == ".." then acc.dropLast else acc ++ [c]) []
  "/" ++ joinSlash resolved

/-! ### Application state

`pending` is the `PendingFiles(Mutex<Vec<PathBuf>>)` store, `emitted` the
sequence of payloads of `file-open` events delivered to the frontend,
`stderr` the sequence of `eprintln!` diagnostic lines, and `focused` records
whether `window.set_focus()` has been requested. -/

structure AppState where
  pending : List String
  emitted : List String
  stderr : List String
  focused : Bool
  deriving DecidableEq, Repr

/-- The state at process start: empty store, nothing emitted or logged. -/
def initialState : AppState := ⟨[], [], [], false⟩

/-- `handle_file_open` from `lib.rs`: on a recognized extension, emit a
`file-open` event with the path (an emit failure, modelled by
`emitOk = false`, is logged and swallowed); otherwise log
"Unsupported file type".  The pending store is never touched. -/
def handle_file_open (path : String) (emitOk : Bool) (s : AppState) : AppState :=
  if recognizedExt path then
    if emitOk then { s with emitted := s.emitted ++ [path] }
    else { s with stderr := s.stderr ++ ["Failed to emit file-open event"] }
  else
    { s with stderr := s.stderr ++ ["Unsupported file type: " ++ path] }

/-- The `tauri_plugin_single_instance` callback in `run`: when the forwarded
argument vector has more than one element, `handle_file_open` is called on
`args[1]`; then the main window, when present, is focused. -/
def single_instance_handler (args : List String) (hasMainWindow emitOk : Bool)
    (s : AppState) : AppState :=
  let s1 :=
    match args with
    | _ :: a :: _ => handle_file_open a emitOk s
    | _ => s
  if hasMainWindow then { s1 with focused := true } else s1

/-- One iteration of the argument loop in the `.setup` closure of `run`:
push the path onto the pending store when its extension is recognized,
otherwise do nothing (no diagnostic is written). -/
def scan_step (st : AppState) (arg : String) : AppState :=
  if recognizedExt arg then { st with pending := st.pending ++ [arg] }
  else st

/-- The `.setup` closure in `run`: scan the process's own command-line
arguments, skipping index 0, and push every path with a recognized
extension onto the pending store. -/
def setup_scan (args : List String) (s : AppState) : AppState :=
  (args.drop 1).foldl scan_step s

/-- A URL delivered by a `RunEvent::Opened` event: either it converts to a
filesystem path (`Url.file`) or `to_file_path()` fails (`Url.other`). -/
inductive Url where
  | file (path : String)
  | other
  deriving DecidableEq, Repr

/-- One iteration of the URL loop in the `RunEvent::Opened` handler of
`run`: a URL that converts to a path is either handed to `handle_file_open`
(main window exists) or, during startup, pushed onto the pending store when
its extension is recognized; a URL that fails to convert is skipped. -/
def opened_step (hasMainWindow emitOk : Bool) (st : AppState) (u : Url) :
    AppState :=
  match u with
  | .other => st
  | .file path =>
    if hasMainWindow then handle_file_open path emitOk st
    else if recognizedExt path then { st with pending := st.pending ++ [path] }
    else st

/-- The `RunEvent::Opened` handler in `run`: process each delivered URL in
order with `opened_step`. -/
def opened_handler (urls : List Url) (hasMainWindow emitOk : Bool)
    (s : AppState) : AppState :=
  urls.foldl (opened_step hasMainWindow emitOk) s

/-- `get_pending_files` from `lib.rs`: drain the pending store, returning all
paths in order and leaving the store empty. -/
def get_pending_files (s : AppState) : List String × AppState :=
  (s.pending, { s with pending := [] })

/-- A single `push` on the locked `PendingFiles` vector. -/
def store_append (path : String) (s : AppState) : AppState :=
  { s with pending := s.pending ++ [path] }

/-- `store_append` iterated over a list of paths, in order. -/
def store_append_all (paths : List String) (s : AppState) : AppState :=
  paths.foldl (fun st p => store_append p st) s

/-! ### base64 (standard engine)

`open_file_with_system` decodes with `base64::engine::general_purpose::STANDARD`:
standard alphabet, canonical `=` padding required, non-zero trailing bits
rejected. -/

/-- Value of one standard-alphabet base64 symbol; `none` for any other
character (including the pad `=`). -/
def b64Val (c : Char) : Option Nat :=
  if 'A' ≤ c ∧ c ≤ 'Z' then some (c.toNat - 65)
  else if 'a' ≤ c ∧ c ≤ 'z' then some (c.toNat - 97 + 26)
  else if '0' ≤ c ∧ c ≤ '9' then some (c.toNat - 48 + 52)
  else if c = '+' then some 62
  else if c = '/' then some 63
  else none

/-- Decode a list of 6-bit symbol values into bytes.  A final group of two
or three symbols must carry zero trailing bits; a final group of one symbol
is invalid. -/
def decodeVals : List Nat → Option (List Nat)
  | [] => some []
  | [_] => none
  | [a, b] =>
    if b % 16 = 0 then some [a * 4 + b / 16] else none
  | [a, b, c] =>
    if c % 4 = 0 then some [a * 4 + b / 16, b % 16 * 16 + c / 4] else none
  | a :: b :: c :: d :: rest =>
    (decodeVals rest).map
      (fun tl => (a * 4 + b / 16) :: (b % 16 * 16 + c / 4) :: (c % 4 * 64 + d) :: tl)

/-- `base64::engine::general_purpose::STANDARD.decode`: the input length must
be a multiple of four, at most two trailing `=` pads are allowed, every other
character must be a standard-alphabet symbol, and trailing bits must be
zero.  Returns the decoded bytes or `none` on malformed input. -/
def base64_decode_standard (s : String) : Option (List Nat) :=
  let cs := s.data
  let n := cs.length
  if n % 4 ≠ 0 then none
  else
    let padCount := (cs.reverse.takeWhile (· == '=')).length
    if padCount > 2 then none
    else
      match (cs.take (n - padCount)).mapM b64Val with
      | none => none
      | some vals => decodeVals vals

/-! ### Filesystem model and the two file commands -/

/-- The filesystem: a partial map from path to byte content. -/
def FS := String → Option (List Nat)

/-- Overwrite (or create) one file. -/
def fsWrite (fs : FS) (path : String) (content : List Nat) : FS :=
  fun q => if q = path then some content else fs q

/-- `read_file_as_bytes` from `lib.rs`: `std::fs::read(&path)` mapped through
`format!("Failed to read file {}: {}", path, e)`.  `oserr` supplies the OS
error text for an unreadable path. -/
def read_file_as_bytes (fs : FS) (oserr : String → String) (path : String) :
    Except String (List Nat) :=
  match fs path with
  | some b => .ok b
  | none => .error ("Failed to read file " ++ path ++ ": " ++ oserr path)

/-- The error cases of `open_file_with_system`, one per `format!` site. -/
inductive SysError where
  | decodeError
  | createError
  | writeError
  | spawnError
  deriving DecidableEq, Repr

/-- The three OS families of the `#[cfg(target_os = ...)]` branches. -/
inductive Platform where
  | macos
  | windows
  | linux
  deriving DecidableEq, Repr

/-- The program spawned by each platform branch: `open`, PowerShell
`Start-Process`, or `xdg-open`. -/
def openerProgram : Platform → String
  | .macos => "open"
  | .windows => "powershell"
  | .linux => "xdg-open"

/-- Outcome of `open_file_with_system`: the filesystem afterwards, the
opener processes spawned (program and path argument), and the returned
`Result`. -/
structure SysOpenResult where
  fs : FS
  spawned : List (String × String)
  ret : Except SysError Unit

/-- `open_file_with_system` from `lib.rs`: decode the base64 content (early
error on malformed input, before touching the filesystem), join the temp
directory with the file name, create the file (truncating: modelled as the
file existing with empty content once `File::create` succeeds), write the
bytes, then spawn the platform opener on the temp path.  `createOk`,
`writeOk` and `spawnOk` model the success of the corresponding OS calls. -/
def open_file_with_system (platform : Platform) (tempDir : String)
    (base64_content file_name : String) (createOk writeOk spawnOk : Bool)
    (fs : FS) : SysOpenResult :=
  match base64_decode_standard base64_content with
  | none => { fs := fs, spawned := [], ret := .error .decodeError }
  | some bytes =>
    let temp_path := pathJoin tempDir file_name
    if ¬ createOk then
      { fs := fs, spawned := [], ret := .error .createError }
    else if ¬ writeOk then
      { fs := fsWrite fs temp_path [], spawned := [], ret := .error .writeError }
    else
      let fs1 := fsWrite fs temp_path bytes
      if spawnOk then
        { fs := fs1, spawned := [(openerProgram platform, temp_path)], ret := .ok () }
      else
        { fs := fs1, spawned := [(openerProgram platform, temp_path)],
          ret := .error .spawnError }

/-! ### The state-changing operations of the running program

Every code site that can touch the `AppState` (and in particular the
pending store), collected as a transition system: the single-instance
callback, the startup argument scan, the `Opened` event handler, and the
drain command. -/

/-- One externally triggered operation on the application state. -/
inductive Op where
  | singleInstance (args : List String) (hasWindow emitOk : Bool)
  | setupScan (args : List String)
  | opened (urls : List Url) (hasWindow emitOk : Bool)
  | drain
  deriving Repr

/-- Effect of one operation on the state (`drain` discards its output). -/
def stepOp : Op → AppState → AppState
  | .singleInstance args hw ek, s => single_instance_handler args hw ek s
  | .setupScan args, s => setup_scan args s
  | .opened urls hw ek, s => opened_handler urls hw ek s
  | .drain, s => (get_pending_files s).2

/-- The state reached from process start after a sequence of operations. -/
def runOps (ops : List Op) : AppState :=
  ops.foldl (fun s op => stepOp op s) initialState

/-! ## Helper lemmas -/

theorem handle_file_open_pending (path : String) (ek : Bool) (s : AppState) :
    (handle_file_open path ek s).pending = s.pending := by
  unfold handle_file_open
  split <;> (try split) <;> rfl

theorem single_instance_pending (args : List String) (hw ek : Bool)
    (s : AppState) :
    (single_instance_handler args hw ek s).pending = s.pending := by
  unfold single_instance_handler
  cases args with
  | nil => cases hw <;> rfl
  | cons a rest =>
    cases rest with
    | nil => cases hw <;> rfl
    | cons b rest2 => cases hw <;> simp [handle_file_open_pending]

theorem scan_fold_state (l : List String) (s : AppState) :
    l.foldl scan_step s = { s with pending := s.pending ++ l.filter recognizedExt } := by
  induction l generalizing s with
  | nil => simp
  | cons a l ih =>
    simp only [List.foldl_cons, List.filter_cons, scan_step]
    by_cases h : recognizedExt a
    · simp [h, ih, List.append_assoc]
    · simp [h, ih]

theorem setup_scan_state (args : List String) (s : AppState) :
    setup_scan args s =
      { s with pending := s.pending ++ (args.drop 1).filter recognizedExt } := by
  unfold setup_scan
  exact scan_fold_state (args.drop 1) s

theorem opened_step_pending_inv (hw ek : Bool) (st : AppState) (u : Url)
    (h : ∀ p ∈ st.pending, recognizedExt p = true) :
    ∀ p ∈ (opened_step hw ek st u).pending, recognizedExt p = true := by
  cases u with
  | other => exact h
  | file path =>
    unfold opened_step
    by_cases hw' : hw
    · simp only [if_pos hw', handle_file_open_pending]
      exact h
    · simp only [if_neg hw']
      by_cases hrec : recognizedExt path
      · simp only [hrec, if_pos]
        intro p hp
        rcases List.mem_append.mp hp with hp | hp
        · exact h p hp
        · rcases List.mem_singleton.mp hp with rfl
          exact hrec
      · simp only [hrec]
        simpa using h

theorem opened_handler_pending_inv (urls : List Url) (hw ek : Bool)
    (s : AppState) (h : ∀ p ∈ s.pending, recognizedExt p = true) :
    ∀ p ∈ (opened_handler urls hw ek s).pending, recognizedExt p = true := by
  unfold opened_handler
  induction urls generalizing s with
  | nil => exact h
  | cons u urls ih =>
    simp only [List.foldl_cons]
    exact ih _ (opened_step_pending_inv hw ek s u h)

theorem stepOp_pending_inv (op : Op) (s : AppState)
    (h : ∀ p ∈ s.pending, recognizedExt p = true) :
    ∀ p ∈ (stepOp op s).pending, recognizedExt p = true := by
  cases op with
  | singleInstance args hw ek =>
    simpa only [stepOp, single_instance_pending] using h
  | setupScan args =>
    simp only [stepOp, setup_scan_state]
    intro p hp
    rcases List.mem_append.mp hp with hp | hp
    · exact h p hp
    · exact (List.mem_filter.mp hp).2
  | opened urls hw ek => exact opened_handler_pending_inv urls hw ek s h
  | drain => simp [stepOp, get_pending_files]

theorem runOps_fold_pending_inv (ops : List Op) (s : AppState)
    (h : ∀ p ∈ s.pending, recognizedExt p = true) :
    ∀ p ∈ (ops.foldl (fun s op => stepOp op s) s).pending,
      recognizedExt p = true := by
  induction ops generalizing s with
  | nil => exact h
  | cons op ops ih =>
    simp only [List.foldl_cons]
    exact ih _ (stepOp_pending_inv op s h)

theorem store_append_all_spec (ps : List String) (s : AppState) :
    store_append_all ps s = { s with pending := s.pending ++ ps } := by
  induction ps generalizing s with
  | nil => simp [store_append_all]
  | cons p ps ih =>
    show store_append_all ps (store_append p s) = _
    rw [ih]
    simp [store_append, List.append_assoc]

theorem open_file_ok_spec (platform : Platform) (tempDir S name : String)
    (B : List Nat) (spawnOk : Bool) (fs : FS)
    (hdec : base64_decode_standard S = some B) :
    (open_file_with_system platform tempDir S name true true spawnOk fs).fs
      = fsWrite fs (pathJoin tempDir name) B ∧
    (open_file_with_system platform tempDir S name true true spawnOk fs).spawned
      = [(openerProgram platform, pathJoin tempDir name)] := by
  cases spawnOk <;> simp [open_file_with_system, hdec]

/-! ## Claims -/

/-- C1 (counterexample): a second process forwarding the single recognized
argument `/tmp/a.msg` to a running instance leaves that instance's pending
store empty — the store does not gain the path as the claim states; instead
a `file-open` event carrying the path is emitted, and the window is
focused. -/
theorem C1_counterexample :
    (single_instance_handler ["app", "/tmp/a.msg"] true true initialState).pending = [] ∧
    (single_instance_handler ["app", "/tmp/a.msg"] true true initialState).emitted
      = ["/tmp/a.msg"] ∧
    (single_instance_handler ["app", "/tmp/a.msg"] true true initialState).focused
      = true := by
  refine ⟨by decide, by decide, by decide⟩

/-- C1 (amended): when a second process forwards a single command-line
argument with a recognized extension to the running instance, the running
instance emits a `file-open` event carrying that path to its UI layer (its
pending store is unchanged) and its main window receives focus. -/
theorem C1_forward_emits_event (exe path : String) (s : AppState)
    (hrec : recognizedExt path = true) :
    single_instance_handler [exe, path] true true s =
      { s with emitted := s.emitted ++ [path], focused := true } := by
  simp [single_instance_handler, handle_file_open, hrec]

/-- Witness for C1 (amended) at `exe = "app"`, `path = "/tmp/a.msg"`. -/
theorem C1_forward_emits_event_witness :
    single_instance_handler ["app", "/tmp/a.msg"] true true initialState =
      { initialState with emitted := ["/tmp/a.msg"], focused := true } := by
  simpa using C1_forward_emits_event "app" "/tmp/a.msg" initialState (by decide)

/-- C2: appending any sequence of paths to the pending store and then
draining with `get_pending_files` returns exactly the prior content followed
by those paths in append order, leaves the store empty, and a second
immediate drain returns the empty list. -/
theorem C2_drain_lossless (ps : List String) (s : AppState) :
    (get_pending_files (store_append_all ps s)).1 = s.pending ++ ps ∧
    (get_pending_files (store_append_all ps s)).2.pending = [] ∧
    (get_pending_files ((get_pending_files (store_append_all ps s)).2)).1 = [] := by
  simp [get_pending_files, store_append_all_spec]

/-- C3: for every base64 input that decodes to bytes `B`,
`open_file_with_system` writes exactly `B` to `pathJoin tempDir name`
(overwriting whatever was there, leaving every other path untouched) and
this write happens before the spawn attempt: it is present in the resulting
filesystem whether or not the spawn succeeds, and the opener is spawned on
that same path. -/
theorem C3_open_writes_before_spawn (platform : Platform)
    (tempDir S name : String) (B : List Nat) (spawnOk : Bool) (fs : FS)
    (hdec : base64_decode_standard S = some B) :
    (open_file_with_system platform tempDir S name true true spawnOk fs).fs
        (pathJoin tempDir name) = some B ∧
    (∀ q, q ≠ pathJoin tempDir name →
      (open_file_with_system platform tempDir S name true true spawnOk fs).fs q
        = fs q) ∧
    (open_file_with_system platform tempDir S name true true spawnOk fs).spawned
      = [(openerProgram platform, pathJoin tempDir name)] := by
  obtain ⟨hfs, hsp⟩ := open_file_ok_spec platform tempDir S name B spawnOk fs hdec
  refine ⟨?_, fun q hq => ?_, hsp⟩
  · simp [hfs, fsWrite]
  · simp [hfs, fsWrite, hq]

/-- Witness for C3: decoding `"QQ=="` to byte `65` and writing it to
`/tmp/a.msg` on the Linux branch. -/
theorem C3_open_writes_before_spawn_witness :
    (open_file_with_system .linux "/tmp" "QQ==" "a.msg" true true true
        (fun _ => none)).fs (pathJoin "/tmp" "a.msg") = some [65] ∧
    (open_file_with_system .linux "/tmp" "QQ==" "a.msg" true true true
        (fun _ => none)).spawned = [("xdg-open", pathJoin "/tmp" "a.msg")] := by
  have h := C3_open_writes_before_spawn .linux "/tmp" "QQ==" "a.msg" [65] true
    (fun _ => none) (by decide)
  exact ⟨h.1, h.2.2⟩

/-- C4: on malformed base64 input, `open_file_with_system` returns the
decode error and performs no filesystem write and no spawn: the whole
result, filesystem included, is unchanged. -/
theorem C4_decode_error_no_write (platform : Platform)
    (tempDir S name : String) (createOk writeOk spawnOk : Bool) (fs : FS)
    (hdec : base64_decode_standard S = none) :
    open_file_with_system platform tempDir S name createOk writeOk spawnOk fs =
      { fs := fs, spawned := [], ret := .error .decodeError } := by
  simp [open_file_with_system, hdec]

/-- Witness for C4 at the malformed input `"%%%%"`. -/
theorem C4_decode_error_no_write_witness :
    open_file_with_system .linux "/tmp" "%%%%" "a.msg" true true true
        (fun _ => none) =
      { fs := fun _ => none, spawned := [], ret := .error .decodeError } :=
  C4_decode_error_no_write .linux "/tmp" "%%%%" "a.msg" true true true
    (fun _ => none) (by decide)

/-- C5: the startup scan on arguments
`["app", "/tmp/x.eml", "/tmp/y.txt", "/tmp/z.msg"]` leaves the pending
store holding exactly `["/tmp/x.eml", "/tmp/z.msg"]`, and `/tmp/y.txt` is
not recorded. -/
theorem C5_startup_scan_scenario :
    (setup_scan ["app", "/tmp/x.eml", "/tmp/y.txt", "/tmp/z.msg"]
        initialState).pending = ["/tmp/x.eml", "/tmp/z.msg"] ∧
    "/tmp/y.txt" ∉
      (setup_scan ["app", "/tmp/x.eml", "/tmp/y.txt", "/tmp/z.msg"]
        initialState).pending := by
  constructor
  · decide
  · decide

/-- C6: every path in the pending store after any sequence of operations
from process start has a recognized extension (`msg` or `eml`,
case-insensitively), and the filter indeed accepts `a.MSG`, `a.Msg`,
`a.eml` while rejecting `a.txt` and extension-less `a`. -/
theorem C6_store_invariant :
    (∀ ops p, p ∈ (runOps ops).pending → recognizedExt p = true) ∧
    recognizedExt "a.MSG" = true ∧ recognizedExt "a.Msg" = true ∧
    recognizedExt "a.eml" = true ∧ recognizedExt "a.txt" = false ∧
    recognizedExt "a" = false := by
  refine ⟨fun ops p hp => ?_, by decide, by decide, by decide, by decide, by decide⟩
  exact runOps_fold_pending_inv ops initialState (by simp [initialState]) p hp

/-- Witness for C6: the invariant applied to the concrete run that scans
`x.msg` at startup. -/
theorem C6_store_invariant_witness : recognizedExt "x.msg" = true :=
  C6_store_invariant.1 [Op.setupScan ["app", "x.msg"]] "x.msg" (by decide)

/-- C7: `read_file_as_bytes` returns exactly the stored bytes of a readable
file, and on an unreadable path fails with the error string wrapping the
path and the OS error text, with no other effect (it is a pure function of
the filesystem). -/
theorem C7_read_file_as_bytes (fs : FS) (oserr : String → String)
    (path : String) :
    (∀ B, fs path = some B → read_file_as_bytes fs oserr path = .ok B) ∧
    (fs path = none →
      read_file_as_bytes fs oserr path =
        .error ("Failed to read file " ++ path ++ ": " ++ oserr path)) := by
  constructor
  · intro B hB
    simp [read_file_as_bytes, hB]
  · intro hnone
    simp [read_file_as_bytes, hnone]

/-- Witness for C7 on a one-file filesystem: the stored bytes come back
exactly, and a missing path produces the wrapped error string. -/
theorem C7_read_file_as_bytes_witness :
    read_file_as_bytes (fun p => if p = "/tmp/a.msg" then some [1, 2, 3] else none)
        (fun _ => "No such file or directory (os error 2)") "/tmp/a.msg"
      = .ok [1, 2, 3] ∧
    read_file_as_bytes (fun p => if p = "/tmp/a.msg" then some [1, 2, 3] else none)
        (fun _ => "No such file or directory (os error 2)") "/tmp/b.msg"
      = .error ("Failed to read file " ++ "/tmp/b.msg" ++ ": "
          ++ "No such file or directory (os error 2)") :=
  ⟨(C7_read_file_as_bytes _ _ "/tmp/a.msg").1 [1, 2, 3] (by simp),
    (C7_read_file_as_bytes _ _ "/tmp/b.msg").2 (by simp)⟩

/-- C8 (counterexample): the startup argument scan drops the unsupported
path `/tmp/y.txt` without writing any diagnostic to stderr — the state is
completely unchanged, refuting the claim that every drop of an unsupported
path is accompanied by a stderr diagnostic. -/
theorem C8_counterexample :
    recognizedExt "/tmp/y.txt" = false ∧
    setup_scan ["app", "/tmp/y.txt"] initialState = initialState := by
  exact ⟨by decide, by decide⟩

/-- C8 (amended): an unsupported-extension path is always dropped without
producing an error, and the drop is accompanied by the
"Unsupported file type" stderr diagnostic exactly on the channels that go
through `handle_file_open` (single-instance forwarding, and file-open
events when the main window exists); the startup argument scan and the
startup branch of the file-open event handler drop it silently, leaving the
state unchanged. -/
theorem C8_unsupported_drop (path : String) (args : List String)
    (emitOk : Bool) (s : AppState) (h : recognizedExt path = false) :
    handle_file_open path emitOk s =
      { s with stderr := s.stderr ++ ["Unsupported file type: " ++ path] } ∧
    opened_handler [Url.file path] true emitOk s =
      { s with stderr := s.stderr ++ ["Unsupported file type: " ++ path] } ∧
    setup_scan ("app" :: args ++ [path]) s = setup_scan ("app" :: args) s ∧
    opened_handler [Url.file path] false emitOk s = s := by
  refine ⟨?_, ?_, ?_, ?_⟩
  · simp [handle_file_open, h]
  · simp [opened_handler, opened_step, handle_file_open, h]
  · simp [setup_scan_state, List.filter_append, h]
  · simp [opened_handler, opened_step, h]

/-- Witness for C8 (amended) at `path = "/tmp/y.txt"`. -/
theorem C8_unsupported_drop_witness :
    handle_file_open "/tmp/y.txt" true initialState =
      { initialState with stderr := ["Unsupported file type: /tmp/y.txt"] } ∧
    setup_scan ["app", "/tmp/y.txt"] initialState = setup_scan ["app"] initialState := by
  have h := C8_unsupported_drop "/tmp/y.txt" [] true initialState (by decide)
  exact ⟨by simpa using h.1, by simpa using h.2.2.1⟩

/-- C9 (counterexample): with temp directory `/tmp` and the absolute file
name `/tmp/evil.msg`, the write target is `/tmp/evil.msg` itself — an
absolute file name whose resulting write target lies inside the temp
directory, refuting the claim that an absolute file name always sends the
write outside it.  The file is really written there. -/
theorem C9_counterexample :
    isAbsolutePath "/tmp/evil.msg" = true ∧
    pathJoin "/tmp" "/tmp/evil.msg" = "/tmp/evil.msg" ∧
    List.isPrefixOf "/tmp/".data
        (normalizePath (pathJoin "/tmp" "/tmp/evil.msg")).data = true ∧
    (open_file_with_system .linux "/tmp" "QQ==" "/tmp/evil.msg" true true true
        (fun _ => none)).fs "/tmp/evil.msg" = some [65] := by
  refine ⟨by decide, by decide, by decide, ?_⟩
  have h := open_file_ok_spec .linux "/tmp" "QQ==" "/tmp/evil.msg"
    [65] true (fun _ => none) (by decide)
  simp [h.1, fsWrite]
  decide

/-- C9 (amended): `open_file_with_system` writes the decoded bytes to
`pathJoin tempDir file_name`; an absolute `file_name` replaces the temp
directory entirely, so the target is `file_name` itself and the caller can
direct the write to any absolute path, and parent-directory components can
resolve the target outside the temp directory (e.g. `../etc/passwd` under
`/tmp` resolves to `/etc/passwd`). -/
theorem C9_write_target (platform : Platform) (tempDir S name : String)
    (B : List Nat) (spawnOk : Bool) (fs : FS)
    (hdec : base64_decode_standard S = some B) :
    (open_file_with_system platform tempDir S name true true spawnOk fs).fs
        (pathJoin tempDir name) = some B ∧
    (isAbsolutePath name = true → pathJoin tempDir name = name) ∧
    normalizePath (pathJoin "/tmp" "../etc/passwd") = "/etc/passwd" := by
  obtain ⟨hfs, _⟩ := open_file_ok_spec platform tempDir S name B spawnOk fs hdec
  refine ⟨by simp [hfs, fsWrite], fun habs => ?_, by decide⟩
  simp [pathJoin, habs]

/-- Witness for C9 (amended): the caller-chosen absolute name
`/etc/passwd` receives the decoded bytes. -/
theorem C9_write_target_witness :
    (open_file_with_system .linux "/tmp" "QQ==" "/etc/passwd" true true true
        (fun _ => none)).fs (pathJoin "/tmp" "/etc/passwd") = some [65] ∧
    pathJoin "/tmp" "/etc/passwd" = "/etc/passwd" := by
  have h := C9_write_target .linux "/tmp" "QQ==" "/etc/passwd" [65] true
    (fun _ => none) (by decide)
  exact ⟨h.1, h.2.1 (by decide)⟩

/-- C10: a URL that cannot be converted to a filesystem path is skipped by
the `Opened` event handler with no effect at all — processing the event
list with the unconvertible URL present gives exactly the same state as
processing it with that URL removed, so the remaining URLs are still
processed and no event, store change or diagnostic arises from it. -/
theorem C10_unconvertible_url_skipped (pre post : List Url) (hw ek : Bool)
    (s : AppState) :
    opened_handler (pre ++ Url.other :: post) hw ek s =
      opened_handler (pre ++ post) hw ek s := by
  unfold opened_handler
  rw [List.foldl_append, List.foldl_append, List.foldl_cons]
  rfl

end MsgReader
